import Mathlib

/-
Verification development for the hospital front-desk assistant backend.

Shallow embedding of:
  - app/services/memory.py   (ConversationMemory over a capped deque)
  - app/services/llm.py      (GeminiChatService: tool dispatch and the
                              bounded orchestration loop of generate_reply)
  - app/tools/hospital_api.py (pagination clamp, booking payload
                              resolution, specialty synonym normalization
                              including a port of difflib ratio matching)
  - app/config.py            (Settings.require_hospital_client_id)

Python machine-level details are embedded as follows: Python lists and
deques become Lean lists; a deque with maxlen keeps the last maxlen
elements; dictionaries keyed by strings become association lists in
insertion order (later assignment overwrites in place) or total
functions; exceptions become Except; the external Gemini client is an
oracle (a pair of functions from the conversation to a response, one
with tool schemas bound and one without).
-/

namespace HospitalBot

/-! Data model: app/schemas.py Message (role is a literal of three values). -/

inductive Role where
  | system
  | user
  | assistant
deriving DecidableEq, Repr

structure Message where
  role : Role
  content : String
deriving DecidableEq, Repr

/-! History store: app/services/memory.py ConversationMemory.
The store maps a conversation id to the window of recent messages; an
absent id is observationally an empty window through get_history, so the
store is embedded as a total function defaulting to []. -/

/- Last n elements of a list: Python list[-n:] and the contents of a
deque(maxlen := n) after appending the whole list. -/
def lastN (n : Nat) (l : List α) : List α := l.drop (l.length - n)

abbrev Memory := String → List Message

def emptyMemory : Memory := fun _ => []

def getHistory (m : Memory) (id : String) : List Message := m id

/- One deque.append on a window already holding at most cap messages:
when full, the oldest (leftmost) element is evicted. -/
def dequePush (cap : Nat) (h : List Message) (x : Message) : List Message :=
  lastN cap (h ++ [x])

/- Appending an iterable message by message, as both set_history and
append_messages do. -/
def dequeExtend (cap : Nat) (h : List Message) (msgs : List Message) : List Message :=
  msgs.foldl (dequePush cap) h

/- set_history: fresh deque(maxlen := cap), append each message. -/
def setHistory (cap : Nat) (m : Memory) (id : String) (msgs : List Message) : Memory :=
  fun k => if k = id then dequeExtend cap [] msgs else m k

/- append_messages: setdefault to an empty deque, then append each. -/
def appendMessages (cap : Nat) (m : Memory) (id : String) (msgs : List Message) : Memory :=
  fun k => if k = id then dequeExtend cap (m k) msgs else m k

/- A sequence of append_messages calls, each to some conversation id. -/
def applyAppendOps (cap : Nat) (m : Memory) (ops : List (String × List Message)) : Memory :=
  ops.foldl (fun acc op => appendMessages cap acc op.1 op.2) m

/- All messages delivered for one conversation id, in arrival order. -/
def joinFor (cid : String) (ops : List (String × List Message)) : List Message :=
  ((ops.filter (fun op => op.1 == cid)).map Prod.snd).flatten

/-! Model-client data: app/services/llm.py. A Gemini response content is
either one string or a list of chunks (dict chunks of type "text" with a
possibly empty text, dict chunks of other types, or bare strings), as
consumed by GeminiChatService._stringify_content. -/

inductive ContentChunk where
  | textChunk (s : String)
  | otherDict
  | strChunk (s : String)
deriving DecidableEq, Repr

inductive GeminiContent where
  | str (s : String)
  | parts (chunks : List ContentChunk)
deriving DecidableEq, Repr

/- _stringify_content: a plain string is returned as is; a chunk list
keeps dict chunks of type "text" with truthy (non-empty) text and bare
string chunks, joined by newlines. -/
def stringifyContent : GeminiContent → String
  | GeminiContent.str s => s
  | GeminiContent.parts chunks =>
      String.intercalate "\n" (chunks.filterMap fun c =>
        match c with
        | ContentChunk.textChunk s => if s == "" then none else some s
        | ContentChunk.strChunk s => some s
        | ContentChunk.otherDict => none)

/- A tool invocation request produced by the model: name, argument
mapping (abstract type, Python passes a dict) and correlation id.
call.get("args") may be absent, hence Option. -/
structure ToolCall (α : Type) where
  name : String
  args : Option α
  callId : Option String
deriving DecidableEq, Repr

structure AIMessage (α : Type) where
  content : GeminiContent
  tool_calls : List (ToolCall α)
deriving DecidableEq, Repr

/- LangChain message objects appearing in the in-flight conversation. -/
inductive BaseMessage (α : Type) where
  | system (content : String)
  | human (content : String)
  | ai (msg : AIMessage α)
  | tool (content : String) (name : String) (tool_call_id : Option String)
deriving DecidableEq, Repr

/- The external Gemini client: one entry point with the tool schemas
bound (self._llm_with_tools.invoke) and one without (self._llm.invoke). -/
structure Oracle (α : Type) where
  withTools : List (BaseMessage α) → AIMessage α
  plain : List (BaseMessage α) → AIMessage α

/- self._tool_map: name to executable action. A raised exception inside
tool.invoke is an Except.error carrying str(exc). -/
def Registry (α : Type) := String → Option (α → Except String String)

/- GeminiChatService._call_tool: unknown names yield a textual not
available result; a raised exception is caught and rendered; otherwise
the str of the result is wrapped. Never raises. -/
def callTool {α : Type} [Inhabited α] (reg : Registry α) (nm : String)
    (args : Option α) (tid : Option String) : BaseMessage α :=
  match reg nm with
  | none =>
      BaseMessage.tool ("Requested tool \x27" ++ nm ++ "\x27 is not available.") nm tid
  | some f =>
      match f (args.getD default) with
      | Except.ok r => BaseMessage.tool r nm tid
      | Except.error e =>
          BaseMessage.tool ("Tool \x27" ++ nm ++ "\x27 failed: " ++ e) nm tid

/- One loop iteration in which the response carried tool calls: append
the model response, then every tool result in the order requested. -/
def stepConv (α : Type) [Inhabited α] (o : Oracle α) (reg : Registry α)
    (conv : List (BaseMessage α)) : List (BaseMessage α) :=
  conv ++ [BaseMessage.ai (o.withTools conv)]
    ++ (o.withTools conv).tool_calls.map (fun c => callTool reg c.name c.args c.callId)

/- The for-loop of generate_reply over range(self._max_tool_iterations):
each iteration invokes the tool-bound model; a response without tool
calls ends the loop with its text, otherwise all requested tools run and
the loop continues. Returns the reply if one was produced, with the
final in-flight conversation. -/
def runToolLoop (α : Type) [Inhabited α] (o : Oracle α) (reg : Registry α) :
    Nat → List (BaseMessage α) → Option String × List (BaseMessage α)
  | 0, conv => (none, conv)
  | fuel + 1, conv =>
      if (o.withTools conv).tool_calls.isEmpty then
        (some (stringifyContent (o.withTools conv).content),
          conv ++ [BaseMessage.ai (o.withTools conv)])
      else
        runToolLoop α o reg fuel (stepConv α o reg conv)

/- After the loop: if reply_text is still None, issue exactly one model
call without tool schemas and use its text. The Nat records how many
schema-free calls were issued. -/
def finalizeReply (α : Type) [Inhabited α] (o : Oracle α)
    (r : Option String × List (BaseMessage α)) : String × Nat :=
  match r.1 with
  | some t => (t, 0)
  | none => (stringifyContent (o.plain r.2).content, 1)

def MAX_HISTORY_MESSAGES : Nat := 5

def DEFAULT_CONVERSATION_ID : String := "_default_session"

def maxToolIterations : Nat := 3

def SYSTEM_PROMPT : String :=
  "You are MedAssist, a hospital front desk assistant. " ++
  "Greet patients warmly, gather intent, and answer questions using only the " ++
  "provided information. Confirm doctor, patient, and timing before booking. " ++
  "If details are missing, ask focused follow-up questions. " ++
  "Always verify doctor availability with the search tool before promising an appointment. " ++
  "If the search tool does not return the requested doctor, explain that they are unavailable " ++
  "and offer alternatives such as searching other specialists. Respond in the same language " ++
  "the patient uses, and when the patient writes in Hindi or Marathi, answer using Devanagari script. " ++
  "Keep responses concise, empathetic, and professional."

/- _map_history: user turns become HumanMessage, assistant turns become
AIMessage, external system turns are dropped. -/
def mapHistory (α : Type) (l : List Message) : List (BaseMessage α) :=
  l.filterMap fun m =>
    match m.role with
    | Role.user => some (BaseMessage.human m.content)
    | Role.assistant => some (BaseMessage.ai ⟨GeminiContent.str m.content, []⟩)
    | Role.system => none

/- Python truthiness of the optional conversation_id string: None and the
empty string are falsy. -/
def truthyId : Option String → Bool
  | none => false
  | some s => !(s == "")

/- Conversation-identity resolution at the top of generate_reply. -/
def effectiveConversationId (cid : Option String) (history : List Message) : Option String :=
  if truthyId cid then cid
  else if history.isEmpty then some DEFAULT_CONVERSATION_ID
  else none

/- Memory state after the stateful branch seeded the store: a non-empty
caller-supplied history is written with set_history before reading. -/
def memoryAfterSeed (mem : Memory) (history : List Message) : Option String → Memory
  | some e =>
      if history.isEmpty then mem
      else setHistory MAX_HISTORY_MESSAGES mem e history
  | none => mem

/- The context assembled for the first model call: system prompt, mapped
trimmed history (history_source[-MAX_HISTORY_MESSAGES:]), new user turn. -/
def initialConversation (α : Type) (mem : Memory) (userMsg : String)
    (history : List Message) (cid : Option String) : List (BaseMessage α) :=
  let eid := effectiveConversationId cid history
  let historySource :=
    match eid with
    | some e => getHistory (memoryAfterSeed mem history eid) e
    | none => history
  BaseMessage.system SYSTEM_PROMPT ::
    (mapHistory α (lastN MAX_HISTORY_MESSAGES historySource) ++ [BaseMessage.human userMsg])

/- GeminiChatService.generate_reply, instrumented: the result pairs the
reply with the number of schema-free model calls, alongside the final
memory state. The user and assistant turns are appended to the store in
the stateful branches only. -/
def generateReplyAudit (α : Type) [Inhabited α] (o : Oracle α) (reg : Registry α)
    (mem : Memory) (userMsg : String) (history : List Message)
    (conversationId : Option String) : (String × Nat) × Memory :=
  let eid := effectiveConversationId conversationId history
  let mem1 := memoryAfterSeed mem history eid
  let r := finalizeReply α o
    (runToolLoop α o reg maxToolIterations (initialConversation α mem userMsg history conversationId))
  let mem2 :=
    match eid with
    | some e =>
        appendMessages MAX_HISTORY_MESSAGES mem1 e
          [⟨Role.user, userMsg⟩, ⟨Role.assistant, r.1⟩]
    | none => mem1
  (r, mem2)

def generateReply (α : Type) [Inhabited α] (o : Oracle α) (reg : Registry α)
    (mem : Memory) (userMsg : String) (history : List Message)
    (conversationId : Option String) : String × Memory :=
  let r := generateReplyAudit α o reg mem userMsg history conversationId
  (r.1.1, r.2)

def generateReplyPlainCalls (α : Type) [Inhabited α] (o : Oracle α) (reg : Registry α)
    (mem : Memory) (userMsg : String) (history : List Message)
    (conversationId : Option String) : Nat :=
  (generateReplyAudit α o reg mem userMsg history conversationId).1.2

/-! app/tools/hospital_api.py: HospitalAPIClient.appointments_by_phone
issues the GET request with safe_limit = max(1, min(limit, 50)). The
embedding captures the query parameters handed to the HTTP layer. -/

def safeLimit (limit : Int) : Int := max 1 (min limit 50)

structure AppointmentsQuery where
  phone_number : String
  page : Int
  limit : Int
deriving DecidableEq, Repr

def appointments_by_phone (phone : String) (page limit : Int) : AppointmentsQuery :=
  ⟨phone, page, safeLimit limit⟩

/- The body of appointments_by_phone_tool forwards its arguments to the
client unchanged; only the client clamps. Tool dispatch, however, never
reaches this body with out-of-range arguments: see the validation layer
below. -/
def appointments_by_phone_tool_query (phone : String) (page limit : Int) : AppointmentsQuery :=
  appointments_by_phone phone page limit

/- The argument mapping a model may supply for the appointments tool:
phone_number is required, page and limit are optional with defaults 1
and 10 (AppointmentsByPhoneInput). -/
structure ApptArgs where
  phone_number : Option String
  page : Option Int
  limit : Option Int
deriving DecidableEq, Repr

instance : Inhabited ApptArgs := ⟨⟨none, none, none⟩⟩

/- Stand-in for the str of the pydantic ValidationError raised by
tool.invoke when a field of AppointmentsByPhoneInput is violated; the
exact rendering of the message is produced by pydantic and only its
occurrence matters here. -/
def apptValidationMsg (field : String) : String :=
  "1 validation error for AppointmentsByPhoneInput: " ++ field

/- StructuredTool validates the arguments against the args_schema
AppointmentsByPhoneInput before the tool function body runs: the
required phone_number, page with ge = 1, limit with ge = 1 and le = 50
(fields in declaration order). A violation raises out of tool.invoke;
in particular an out-of-range limit is rejected here and the clamp in
the client is never reached. -/
def validateApptArgs (a : ApptArgs) : Except String (String × Int × Int) :=
  match a.phone_number with
  | none => Except.error (apptValidationMsg "phone_number")
  | some phone =>
      if a.page.getD 1 < 1 then Except.error (apptValidationMsg "page")
      else if a.limit.getD 10 < 1 ∨ 50 < a.limit.getD 10 then
        Except.error (apptValidationMsg "limit")
      else Except.ok (phone, a.page.getD 1, a.limit.getD 10)

/- A tool invocation of appointments_by_phone up to the remote call:
either the schema validation rejects it (no remote call is issued), or
the function body runs and the client issues the query with the clamped
limit. -/
def appointmentsToolRun (a : ApptArgs) : Except String AppointmentsQuery :=
  (validateApptArgs a).map (fun v => appointments_by_phone v.1 v.2.1 v.2.2)

/- The full tool as _tool_map exposes it: validation, then the remote
call on the issued query (remote behavior is a parameter). -/
def appointmentsByPhoneTool (remote : AppointmentsQuery → Except String String)
    (a : ApptArgs) : Except String String :=
  (appointmentsToolRun a).bind remote

def apptRegistry (remote : AppointmentsQuery → Except String String) : Registry ApptArgs :=
  fun nm => if nm == "appointments_by_phone" then some (appointmentsByPhoneTool remote) else none

def remoteApptStub : AppointmentsQuery → Except String String :=
  fun _ => Except.ok "No appointments found."

def apptArgs999 : ApptArgs := ⟨some "9999999999", some 1, some 999⟩

/-! app/config.py Settings.require_hospital_client_id and
app/tools/hospital_api.py book_appointment_tool. The environment value
may be unset (none) or set to any string; Python truthiness makes both
None and the empty string raise. -/

structure Config where
  hospital_client_id : Option String
deriving DecidableEq, Repr

def missingClientIdMsg : String :=
  "Missing HOSPITAL_CLIENT_ID environment variable required for appointment bookings."

def requireHospitalClientId (cfg : Config) : Except String String :=
  match cfg.hospital_client_id with
  | some s => if s == "" then Except.error missingClientIdMsg else Except.ok s
  | none => Except.error missingClientIdMsg

structure BookArgs where
  doctor_id : String
  patient_name : String
  patient_phone_number : String
  meeting_time : String
  appointment_type : String
  status : String
  client_id : Option String
deriving DecidableEq, Repr

instance : Inhabited BookArgs := ⟨⟨"", "", "", "", "online", "scheduled", none⟩⟩

structure BookAppointmentPayload where
  doctor_id : String
  patient_name : String
  patient_phone_number : String
  client_id : String
  meeting_time : String
  appointment_type : String
  status : String
deriving DecidableEq, Repr

/- resolved_client_id = client_id or settings.require_hospital_client_id()
followed by the payload literal sent to POST /patient/book-appointment.
An error is the RuntimeError raised out of the tool function. -/
def resolveBookPayload (cfg : Config) (a : BookArgs) : Except String BookAppointmentPayload :=
  let resolved :=
    match a.client_id with
    | some s => if s == "" then requireHospitalClientId cfg else Except.ok s
    | none => requireHospitalClientId cfg
  resolved.map fun cid =>
    ⟨a.doctor_id, a.patient_name, a.patient_phone_number, cid,
      a.meeting_time, a.appointment_type, a.status⟩

/- book_appointment_tool: resolve the payload, then perform the remote
call and format its response (the remote behavior is a parameter). -/
def bookAppointmentTool (cfg : Config) (remote : BookAppointmentPayload → Except String String)
    (a : BookArgs) : Except String String :=
  (resolveBookPayload cfg a).bind remote

/- The registry entry as _tool_map exposes it to _call_tool. -/
def bookRegistry (cfg : Config) (remote : BookAppointmentPayload → Except String String) :
    Registry BookArgs :=
  fun nm => if nm == "book_appointment" then some (bookAppointmentTool cfg remote) else none

/-! Specialty synonym normalization: hospital_api.py
normalize_specialty_query, with a port of difflib.get_close_matches.

Strings are processed as lists of characters. Python str.strip() removes
the Unicode whitespace below from both ends; str.lower() is embedded as
ASCII lowercasing (the alias vocabulary is ASCII and Devanagari, and
Devanagari has no case). Float ratio comparisons in difflib are embedded
as exact rational comparisons: for the list sizes reachable here the
gaps between distinct exact ratios are far wider than double rounding
error, so the comparisons coincide. -/

def pySpaceCodes : List Nat :=
  [0x09, 0x0a, 0x0b, 0x0c, 0x0d, 0x1c, 0x1d, 0x1e, 0x1f, 0x20, 0x85, 0xa0,
   0x1680, 0x2000, 0x2001, 0x2002, 0x2003, 0x2004, 0x2005, 0x2006, 0x2007,
   0x2008, 0x2009, 0x200a, 0x2028, 0x2029, 0x202f, 0x205f, 0x3000]

def isPySpace (c : Char) : Bool := pySpaceCodes.contains c.toNat

def pyStrip (l : List Char) : List Char :=
  ((l.dropWhile isPySpace).reverse.dropWhile isPySpace).reverse

def pyLowerChar (c : Char) : Char :=
  if 65 ≤ c.toNat && c.toNat ≤ 90 then Char.ofNat (c.toNat + 32) else c

def pyLowerList (l : List Char) : List Char := l.map pyLowerChar

def pyLowerStr (s : String) : String := String.mk (pyLowerList s.toList)

def SPECIALTY_SYNONYMS : List (String × List String) :=
  [("Cardiologist",
    ["cardiologist", "heart doctor", "heart specialist",
     "हृदय रोग विशेषज्ञ", "हृदयाचा डॉक्टर"]),
   ("Dermatologist",
    ["dermatologist", "skin doctor", "skin specialist",
     "त्वचा रोग विशेषज्ञ", "त्वचेचा डॉक्टर"]),
   ("Gastroenterologist",
    ["gastroenterologist", "gastro", "stomach doctor", "digestive doctor",
     "पोटाचा डॉक्टर", "पोटाचे डॉक्टर", "अन्ननलिका विशेषज्ञ"]),
   ("Pediatrician",
    ["pediatrician", "child doctor", "बालरोग तज्ञ", "बाळांचा डॉक्टर"]),
   ("Neurologist",
    ["neurologist", "brain doctor", "न्यूरोलॉजिस्ट", "मेंदूचा डॉक्टर"]),
   ("Orthopedic Surgeon",
    ["orthopedic", "bone doctor", "हाडांचा डॉक्टर", "ऑर्थोपेडिक"])]

/- Python dict assignment: overwrite in place if the key exists, else
append at the end (insertion order preserved). -/
def assocUpsert (m : List (String × String)) (k v : String) : List (String × String) :=
  if m.any (fun p => p.1 == k) then
    m.map (fun p => if p.1 == k then (k, v) else p)
  else m ++ [(k, v)]

/- ALIAS_TO_SPECIALTY[alias.lower()] = canonical over all synonyms. -/
def ALIAS_TO_SPECIALTY : List (String × String) :=
  SPECIALTY_SYNONYMS.foldl
    (fun acc p => p.2.foldl (fun acc2 a => assocUpsert acc2 (pyLowerStr a) p.1) acc)
    []

/- difflib SequenceMatcher with isjunk = None: b2j maps each character
of b to its ascending index list; with autojunk, characters that occur
in more than one percent of a b of length at least 200 are dropped. -/
def listIndexes (b : List Char) (c : Char) : List Nat :=
  (List.range b.length).filter (fun j => b.getD j ' ' == c)

def b2jFor (b : List Char) (c : Char) : List Nat :=
  if decide (200 ≤ b.length) && decide (b.length / 100 + 1 < (listIndexes b c).length) then
    []
  else listIndexes b c

def j2lenGet (l : List (Nat × Nat)) (j : Nat) : Nat :=
  match l.find? (fun p => p.1 == j) with
  | some p => p.2
  | none => 0

structure FlMatch where
  i : Nat
  j : Nat
  size : Nat
deriving DecidableEq, Repr

/- Inner loop of find_longest_match over the indices j at which b holds
the current character a[i]: k = newj2len[j] = j2len.get(j-1, 0) + 1, and
the running best is replaced only on strictly larger size. For j = 0 the
Python lookup is at index -1 and yields the default 0. -/
def flmRowStep (i : Nat) (j2len : List (Nat × Nat))
    (acc : List (Nat × Nat) × FlMatch) (j : Nat) : List (Nat × Nat) × FlMatch :=
  let k := (if j == 0 then 0 else j2lenGet j2len (j - 1)) + 1
  let best := if acc.2.size < k then FlMatch.mk (i + 1 - k) (j + 1 - k) k else acc.2
  ((j, k) :: acc.1, best)

/- The dynamic program of find_longest_match over i in range(alo, ahi).
The continue/break guards on j < blo and j >= bhi amount to a filter
because the index lists ascend. -/
def flmCore (a : List Char) (b2jb : Char → List Nat) (alo ahi blo bhi : Nat) : FlMatch :=
  ((List.range' alo (ahi - alo)).foldl
    (fun (acc : List (Nat × Nat) × FlMatch) i =>
      let js := (b2jb (a.getD i ' ')).filter
        (fun j => decide (blo ≤ j) && decide (j < bhi))
      js.foldl (flmRowStep i acc.1) ([], acc.2))
    ([], FlMatch.mk alo blo 0)).2

def charAtEq (a : List Char) (i : Nat) (b : List Char) (j : Nat) : Bool :=
  match a.get? i, b.get? j with
  | some x, some y => x == y
  | _, _ => false

/- First post-loop while of find_longest_match: extend the match to the
left over equal non-junk characters (the junk set is empty here). -/
def extendLeft (a b : List Char) (alo blo : Nat) : Nat → FlMatch → FlMatch
  | 0, m => m
  | fuel + 1, m =>
      if decide (alo < m.i) && decide (blo < m.j) && charAtEq a (m.i - 1) b (m.j - 1) then
        extendLeft a b alo blo fuel (FlMatch.mk (m.i - 1) (m.j - 1) (m.size + 1))
      else m

/- Second post-loop while: extend to the right likewise. The two
junk-adjacent while loops of the source never run because the junk set
is empty when isjunk is None. -/
def extendRight (a b : List Char) (ahi bhi : Nat) : Nat → FlMatch → FlMatch
  | 0, m => m
  | fuel + 1, m =>
      if decide (m.i + m.size < ahi) && decide (m.j + m.size < bhi)
          && charAtEq a (m.i + m.size) b (m.j + m.size) then
        extendRight a b ahi bhi fuel (FlMatch.mk m.i m.j (m.size + 1))
      else m

def findLongestMatch (a b : List Char) (b2jb : Char → List Nat)
    (alo ahi blo bhi : Nat) : FlMatch :=
  let m := flmCore a b2jb alo ahi blo bhi
  let m := extendLeft a b alo blo m.i m
  extendRight a b ahi bhi ahi m

/- Total size matched over all matching blocks (the recursion of
get_matching_blocks); the fuel bound strictly exceeds any possible
recursion depth since every recursive call shrinks the combined range by
at least the positive block size. -/
def matchedTotal (a b : List Char) (b2jb : Char → List Nat) :
    Nat → Nat → Nat → Nat → Nat → Nat
  | 0, _, _, _, _ => 0
  | fuel + 1, alo, ahi, blo, bhi =>
      let m := findLongestMatch a b b2jb alo ahi blo bhi
      if m.size == 0 then 0
      else
        matchedTotal a b b2jb fuel alo m.i blo m.j + m.size
          + matchedTotal a b b2jb fuel (m.i + m.size) ahi (m.j + m.size) bhi

/- The matches count entering ratio(): ratio = 2 * M / (len a + len b). -/
def ratioM (a b : List Char) : Nat :=
  matchedTotal a b (b2jFor b) (a.length + b.length + 1) 0 a.length 0 b.length

/- Python string comparison (code-point lexicographic), strict greater. -/
def lexGtChars : List Char → List Char → Bool
  | [], _ => false
  | _ :: _, [] => true
  | a :: as, b :: bs =>
      if b.toNat < a.toNat then true
      else if a.toNat < b.toNat then false
      else lexGtChars as bs

/- get_close_matches(word, keys, n = 1, cutoff = 0.75): keep candidates
with ratio at least 0.75 (the quick ratios are upper bounds of ratio, so
the chained filter reduces to the last test; 2M/T >= 3/4 iff 8M >= 3T)
and return the largest (score, candidate) pair as heapq.nlargest orders
tuples: by score, ties by the candidate string descending. -/
def getCloseMatch1 (word : List Char) (keys : List (List Char)) : Option (List Char) :=
  (keys.foldl
    (fun (best : Option (List Char × Nat × Nat)) x =>
      let M := ratioM x word
      let T := x.length + word.length
      if decide (3 * T ≤ 8 * M) then
        match best with
        | none => some (x, M, T)
        | some (y, My, Ty) =>
            if decide (My * T < M * Ty)
                || (decide (My * T = M * Ty) && lexGtChars x y) then
              some (x, M, T)
            else best
      else best)
    none).map Prod.fst

/- Python substring containment (alias in cleaned). -/
def isSubstring (needle : List Char) : List Char → Bool
  | [] => needle.isEmpty
  | c :: rest => List.isPrefixOf needle (c :: rest) || isSubstring needle rest

def cleanedOf (raw : String) : List Char := pyLowerList (pyStrip raw.toList)

/- normalize_specialty_query: falsy input passes through; exact alias
lookup; else fuzzy nearest match at cutoff 0.75; else first alias (in
dict insertion order) occurring inside the query; else unchanged. The
dict indexing after a fuzzy hit cannot miss since the candidate is drawn
from the dict keys, hence the getD total rendering. -/
def normalize_specialty_query (raw_query : String) : String :=
  if raw_query == "" then raw_query
  else if (cleanedOf raw_query).isEmpty then raw_query
  else
    match List.lookup (String.mk (cleanedOf raw_query)) ALIAS_TO_SPECIALTY with
    | some canonical => canonical
    | none =>
      match getCloseMatch1 (cleanedOf raw_query)
          (ALIAS_TO_SPECIALTY.map (fun p => p.1.toList)) with
      | some key => (List.lookup (String.mk key) ALIAS_TO_SPECIALTY).getD raw_query
      | none =>
        match ALIAS_TO_SPECIALTY.find?
            (fun p => isSubstring p.1.toList (cleanedOf raw_query)) with
        | some p => p.2
        | none => raw_query

/-! Concrete collaborators used by witness instantiations. -/

def oracleAlwaysTool : Oracle Unit :=
  ⟨fun _ => ⟨GeminiContent.str "calling a tool", [⟨"ghost_tool", none, some "call-0"⟩]⟩,
   fun _ => ⟨GeminiContent.str "fallback answer", []⟩⟩

def oracleNoTool : Oracle Unit :=
  ⟨fun _ => ⟨GeminiContent.str "plain reply", []⟩,
   fun _ => ⟨GeminiContent.str "plain reply", []⟩⟩

def regEmptyU : Registry Unit := fun _ => none

def remoteStub : BookAppointmentPayload → Except String String :=
  fun _ => Except.ok "No data returned."

def bookArgsNoClient : BookArgs :=
  ⟨"doc-1", "Asha Rao", "9999999999", "2025-10-09T11:20:03.544Z", "online", "scheduled", none⟩

def oracleBook : Oracle BookArgs :=
  ⟨fun _ => ⟨GeminiContent.str "booking", [⟨"book_appointment", some bookArgsNoClient, some "call-1"⟩]⟩,
   fun _ => ⟨GeminiContent.str "done", []⟩⟩

def cfgNoClient : Config := ⟨none⟩

def cfgWithClient : Config := ⟨some "444d9283-88fa-4320-a084-1adb97085d41"⟩

/-! Helper lemmas about the capped window. -/

theorem lastN_of_le {n : Nat} {l : List α} (h : l.length ≤ n) : lastN n l = l := by
  simp [lastN, Nat.sub_eq_zero_of_le h]

theorem lastN_length (n : Nat) (l : List α) : (lastN n l).length = min n l.length := by
  simp [lastN]
  omega

theorem lastN_length_le (n : Nat) (l : List α) : (lastN n l).length ≤ n := by
  rw [lastN_length]
  omega

theorem lastN_lastN_append (n : Nat) (l r : List α) :
    lastN n (lastN n l ++ r) = lastN n (l ++ r) := by
  rcases Nat.le_total l.length n with h | h
  · rw [lastN_of_le h]
  · unfold lastN
    rw [List.drop_append_eq_append_drop, List.drop_append_eq_append_drop, List.drop_drop]
    have h1 : (l.drop (l.length - n)).length = n := by
      simp
      omega
    congr 2 <;> simp [h1, List.length_append] <;> omega

theorem dequeExtend_eq (cap : Nat) :
    ∀ (msgs h0 : List Message), h0.length ≤ cap →
      dequeExtend cap h0 msgs = lastN cap (h0 ++ msgs) := by
  intro msgs
  induction msgs with
  | nil =>
      intro h0 hle
      simp [dequeExtend, lastN_of_le hle]
  | cons x xs ih =>
      intro h0 hle
      have hpush : dequePush cap h0 x = lastN cap (h0 ++ [x]) := rfl
      have hlen : (dequePush cap h0 x).length ≤ cap := by
        rw [hpush]
        exact lastN_length_le cap _
      have hstep : dequeExtend cap h0 (x :: xs) = dequeExtend cap (dequePush cap h0 x) xs := rfl
      rw [hstep, ih _ hlen, hpush, lastN_lastN_append]
      simp

theorem dequeExtend_length_le (cap : Nat) (msgs h0 : List Message) (hle : h0.length ≤ cap) :
    (dequeExtend cap h0 msgs).length ≤ cap := by
  rw [dequeExtend_eq cap msgs h0 hle]
  exact lastN_length_le cap _

theorem joinFor_cons (cid : String) (op : String × List Message)
    (t : List (String × List Message)) :
    joinFor cid (op :: t) =
      if op.1 == cid then op.2 ++ joinFor cid t else joinFor cid t := by
  by_cases h : op.1 == cid <;> simp [joinFor, List.filter_cons, h]

theorem applyAppendOps_get (cap : Nat) (ops : List (String × List Message)) :
    ∀ (m : Memory), (∀ k, (m k).length ≤ cap) → ∀ cid,
      getHistory (applyAppendOps cap m ops) cid = lastN cap (m cid ++ joinFor cid ops) := by
  induction ops with
  | nil =>
      intro m hm cid
      simp [applyAppendOps, joinFor, getHistory, lastN_of_le (hm cid)]
  | cons op t ih =>
      intro m hm cid
      have hm2 : ∀ k, ((appendMessages cap m op.1 op.2) k).length ≤ cap := by
        intro k
        by_cases hk : k = op.1
        · simp only [appendMessages, if_pos hk]
          exact dequeExtend_length_le cap _ _ (hm k)
        · simp only [appendMessages, if_neg hk]
          exact hm k
      have hrec := ih (appendMessages cap m op.1 op.2) hm2 cid
      have hfold : applyAppendOps cap m (op :: t) =
          applyAppendOps cap (appendMessages cap m op.1 op.2) t := rfl
      rw [hfold, hrec, joinFor_cons]
      by_cases hk : op.1 = cid
      · have h1 : appendMessages cap m op.1 op.2 cid = dequeExtend cap (m cid) op.2 := by
          simp [appendMessages, hk]
        rw [h1, if_pos (by simp [hk]), dequeExtend_eq cap _ _ (hm cid), lastN_lastN_append]
        simp
      · have h1 : appendMessages cap m op.1 op.2 cid = m cid := by
          simp only [appendMessages]
          rw [if_neg (Ne.symm hk)]
        rw [h1, if_neg (by simp [hk])]

/-- C2: across any sequence of append_messages calls (to any mix of
conversation ids) starting from an empty store, get_history on a
conversation id returns exactly the last min(N, 5) of the N messages
delivered to that id, in insertion order: the window is a FIFO deque of
capacity exactly 5. -/
theorem append_messages_window_fifo (ops : List (String × List Message)) (cid : String) :
    getHistory (applyAppendOps 5 emptyMemory ops) cid = lastN 5 (joinFor cid ops)
    ∧ (getHistory (applyAppendOps 5 emptyMemory ops) cid).length
        = min 5 (joinFor cid ops).length := by
  have h := applyAppendOps_get 5 ops emptyMemory (by intro k; simp [emptyMemory]) cid
  simp only [emptyMemory, List.nil_append] at h
  exact ⟨h, by rw [h, lastN_length]⟩

/-- C8: set_history followed by get_history on the same id returns
exactly the supplied turns when at most 5 were supplied, and exactly the
last 5 (truncated from the front) otherwise. -/
theorem set_history_then_get (m : Memory) (id : String) (turns : List Message) :
    getHistory (setHistory 5 m id turns) id = lastN 5 turns
    ∧ (turns.length ≤ 5 → getHistory (setHistory 5 m id turns) id = turns) := by
  have h : getHistory (setHistory 5 m id turns) id = lastN 5 turns := by
    simp only [getHistory, setHistory, if_pos rfl]
    rw [dequeExtend_eq 5 turns [] (by simp)]
    simp
  exact ⟨h, fun hle => by rw [h, lastN_of_le hle]⟩

/-- C8 witness: three turns of history survive verbatim through a
replace-then-read round trip. -/
theorem set_history_then_get_witness :
    getHistory
      (setHistory 5 emptyMemory "conv-1"
        [⟨Role.user, "a"⟩, ⟨Role.assistant, "b"⟩, ⟨Role.user, "c"⟩]) "conv-1"
      = [⟨Role.user, "a"⟩, ⟨Role.assistant, "b"⟩, ⟨Role.user, "c"⟩] :=
  (set_history_then_get emptyMemory "conv-1"
    [⟨Role.user, "a"⟩, ⟨Role.assistant, "b"⟩, ⟨Role.user, "c"⟩]).2 (by decide)

/-! Helper unfolding lemmas for the orchestration loop. -/

theorem runToolLoop_zero (α : Type) [Inhabited α] (o : Oracle α) (reg : Registry α)
    (conv : List (BaseMessage α)) : runToolLoop α o reg 0 conv = (none, conv) := rfl

theorem runToolLoop_succ (α : Type) [Inhabited α] (o : Oracle α) (reg : Registry α)
    (fuel : Nat) (conv : List (BaseMessage α)) :
    runToolLoop α o reg (fuel + 1) conv =
      if (o.withTools conv).tool_calls.isEmpty then
        (some (stringifyContent (o.withTools conv).content),
          conv ++ [BaseMessage.ai (o.withTools conv)])
      else runToolLoop α o reg fuel (stepConv α o reg conv) := rfl

theorem runToolLoop_succ_tools (α : Type) [Inhabited α] (o : Oracle α) (reg : Registry α)
    (fuel : Nat) (conv : List (BaseMessage α))
    (h : (o.withTools conv).tool_calls ≠ []) :
    runToolLoop α o reg (fuel + 1) conv = runToolLoop α o reg fuel (stepConv α o reg conv) := by
  rw [runToolLoop_succ, if_neg]
  rw [List.isEmpty_iff]
  exact h

theorem ephemeral_memory_unchanged (α : Type) [Inhabited α] (o : Oracle α)
    (reg : Registry α) (mem : Memory) (u : String) (hist : List Message)
    (hne : hist ≠ []) :
    (generateReplyAudit α o reg mem u hist none).2 = mem := by
  have h1 : effectiveConversationId none hist = none := by
    simp [effectiveConversationId, truthyId, hne]
  simp [generateReplyAudit, h1, memoryAfterSeed]

/-- C1: if each of the 3 tool iterations of generate_reply produces a
model response carrying tool invocation requests, the loop issues
exactly one additional model call without tool schemas attached and the
reply equals the text of that final response; the loop terminates. -/
theorem generate_reply_cap_single_plain_call (α : Type) [Inhabited α] (o : Oracle α)
    (reg : Registry α) (mem : Memory) (u : String) (hist : List Message)
    (cid : Option String)
    (h0 : (o.withTools (initialConversation α mem u hist cid)).tool_calls ≠ [])
    (h1 : (o.withTools (stepConv α o reg (initialConversation α mem u hist cid))).tool_calls ≠ [])
    (h2 : (o.withTools (stepConv α o reg (stepConv α o reg
            (initialConversation α mem u hist cid)))).tool_calls ≠ []) :
    generateReplyPlainCalls α o reg mem u hist cid = 1
    ∧ (generateReply α o reg mem u hist cid).1
        = stringifyContent ((o.plain (stepConv α o reg (stepConv α o reg (stepConv α o reg
            (initialConversation α mem u hist cid))))).content) := by
  have hloop : runToolLoop α o reg maxToolIterations (initialConversation α mem u hist cid)
      = (none, stepConv α o reg (stepConv α o reg (stepConv α o reg
          (initialConversation α mem u hist cid)))) := by
    rw [show maxToolIterations = 2 + 1 from rfl, runToolLoop_succ_tools α o reg 2 _ h0,
      show (2 : Nat) = 1 + 1 from rfl, runToolLoop_succ_tools α o reg 1 _ h1,
      show (1 : Nat) = 0 + 1 from rfl, runToolLoop_succ_tools α o reg 0 _ h2,
      runToolLoop_zero]
  constructor
  · simp [generateReplyPlainCalls, generateReplyAudit, hloop, finalizeReply]
  · simp [generateReply, generateReplyAudit, hloop, finalizeReply]

/-- C1 witness: an oracle that always requests an unknown tool drives
the loop through all 3 iterations and the reply comes from the single
schema-free final call. -/
theorem generate_reply_cap_single_plain_call_witness :
    generateReplyPlainCalls Unit oracleAlwaysTool regEmptyU emptyMemory "hi" [] none = 1
    ∧ (generateReply Unit oracleAlwaysTool regEmptyU emptyMemory "hi" [] none).1
        = stringifyContent ((oracleAlwaysTool.plain (stepConv Unit oracleAlwaysTool regEmptyU
            (stepConv Unit oracleAlwaysTool regEmptyU (stepConv Unit oracleAlwaysTool regEmptyU
              (initialConversation Unit emptyMemory "hi" [] none))))).content) :=
  generate_reply_cap_single_plain_call Unit oracleAlwaysTool regEmptyU emptyMemory "hi" [] none
    (by decide) (by decide) (by decide)

/-- C3: dispatch of a tool invocation whose name is not registered does
not raise: it yields a textual Tool Result stating the tool is not
available, tagged with the correlation id of the request, the result is
appended to the in-flight context, and the loop proceeds to the next
model call. -/
theorem unknown_tool_recovered (α : Type) [Inhabited α] (o : Oracle α) (reg : Registry α)
    (conv : List (BaseMessage α)) (fuel : Nat) (nm : String) (args : Option α)
    (tid : Option String)
    (hmiss : reg nm = none)
    (hresp : (o.withTools conv).tool_calls = [⟨nm, args, tid⟩]) :
    callTool reg nm args tid
      = BaseMessage.tool ("Requested tool \x27" ++ nm ++ "\x27 is not available.") nm tid
    ∧ runToolLoop α o reg (fuel + 1) conv
        = runToolLoop α o reg fuel
            (conv ++ [BaseMessage.ai (o.withTools conv)] ++ [callTool reg nm args tid]) := by
  constructor
  · simp [callTool, hmiss]
  · rw [runToolLoop_succ_tools α o reg fuel conv (by simp [hresp])]
    simp [stepConv, hresp]

/-- C3 witness: a request for the unregistered name ghost_tool against
the empty registry produces the not-available Tool Result, appended
before the next iteration. -/
theorem unknown_tool_recovered_witness :
    callTool regEmptyU "ghost_tool" none (some "call-0")
      = BaseMessage.tool "Requested tool \x27ghost_tool\x27 is not available."
          "ghost_tool" (some "call-0")
    ∧ runToolLoop Unit oracleAlwaysTool regEmptyU 2 []
        = runToolLoop Unit oracleAlwaysTool regEmptyU 1
            ([] ++ [BaseMessage.ai (oracleAlwaysTool.withTools [])]
              ++ [callTool regEmptyU "ghost_tool" none (some "call-0")]) :=
  unknown_tool_recovered Unit oracleAlwaysTool regEmptyU [] 1 "ghost_tool" none
    (some "call-0") rfl (by decide)

/-- C7: a call to generate_reply with no conversation identifier and a
non-empty inline history is ephemeral: the history store is left
completely unchanged. -/
theorem no_id_inline_history_ephemeral (α : Type) [Inhabited α] (o : Oracle α)
    (reg : Registry α) (mem : Memory) (u : String) (hist : List Message)
    (hne : hist ≠ []) :
    (generateReply α o reg mem u hist none).2 = mem :=
  ephemeral_memory_unchanged α o reg mem u hist hne

/-- C7 witness: a one-turn inline history without an identifier leaves
the empty store empty. -/
theorem no_id_inline_history_ephemeral_witness :
    (generateReply Unit oracleNoTool regEmptyU emptyMemory "hi"
      [⟨Role.user, "earlier"⟩] none).2 = emptyMemory :=
  no_id_inline_history_ephemeral Unit oracleNoTool regEmptyU emptyMemory "hi"
    [⟨Role.user, "earlier"⟩] (by decide)

/-- C9: an empty-string conversation identifier behaves exactly like an
absent one: generate_reply computes the same result; with empty history
the exchange is persisted under the reserved identifier _default_session
(and only there); with non-empty inline history nothing is persisted. -/
theorem empty_id_like_absent (α : Type) [Inhabited α] (o : Oracle α) (reg : Registry α)
    (mem : Memory) (u : String) (hist : List Message) :
    generateReply α o reg mem u hist (some "") = generateReply α o reg mem u hist none
    ∧ (generateReply α o reg mem u [] (some "")).2 "_default_session"
        = dequeExtend 5 (mem "_default_session")
            [⟨Role.user, u⟩, ⟨Role.assistant, (generateReply α o reg mem u [] (some "")).1⟩]
    ∧ (∀ k, k ≠ "_default_session" → (generateReply α o reg mem u [] (some "")).2 k = mem k)
    ∧ (hist ≠ [] → (generateReply α o reg mem u hist (some "")).2 = mem) := by
  have heid : ∀ h : List Message,
      effectiveConversationId (some "") h = effectiveConversationId none h := by
    intro h
    simp [effectiveConversationId, truthyId]
  have hsame : generateReply α o reg mem u hist (some "")
      = generateReply α o reg mem u hist none := by
    simp only [generateReply, generateReplyAudit, initialConversation, heid]
  have heid2 : effectiveConversationId (some "") ([] : List Message)
      = some DEFAULT_CONVERSATION_ID := by
    simp [effectiveConversationId, truthyId]
  refine ⟨hsame, ?_, ?_, ?_⟩
  · simp [generateReply, generateReplyAudit, heid2, memoryAfterSeed, appendMessages,
      MAX_HISTORY_MESSAGES, DEFAULT_CONVERSATION_ID]
  · intro k hk
    simp [generateReply, generateReplyAudit, heid2, memoryAfterSeed, appendMessages,
      MAX_HISTORY_MESSAGES, DEFAULT_CONVERSATION_ID, hk]
  · intro hne
    rw [hsame]
    exact ephemeral_memory_unchanged α o reg mem u hist hne

/-- C9 witness: with the empty-string identifier and a non-empty inline
history the store is untouched. -/
theorem empty_id_like_absent_witness :
    (generateReply Unit oracleNoTool regEmptyU emptyMemory "hi"
      [⟨Role.user, "earlier"⟩] (some "")).2 = emptyMemory :=
  (empty_id_like_absent Unit oracleNoTool regEmptyU emptyMemory "hi"
    [⟨Role.user, "earlier"⟩]).2.2.2 (by decide)

/-- C4 counterexample: a tool invocation of appointments_by_phone with
limit 999 is rejected by the args-schema validation before the tool
function body runs: the run produces a validation error and not the
clamped remote query, and _call_tool feeds the rejection back as a
tool-failure Tool Result. This contradicts the claim that the limit is
clamped into [1, 50] before the remote call is issued rather than the
request being rejected as a schema violation. -/
theorem appointments_limit_999_schema_rejected :
    appointmentsToolRun apptArgs999 = Except.error (apptValidationMsg "limit")
    ∧ appointmentsToolRun apptArgs999 ≠ Except.ok (appointments_by_phone "9999999999" 1 999)
    ∧ callTool (apptRegistry remoteApptStub) "appointments_by_phone"
        (some apptArgs999) (some "call-2")
      = BaseMessage.tool
          ("Tool \x27appointments_by_phone\x27 failed: " ++ apptValidationMsg "limit")
          "appointments_by_phone" (some "call-2") := by
  have h1 : appointmentsToolRun apptArgs999 = Except.error (apptValidationMsg "limit") := rfl
  refine ⟨h1, ?_, rfl⟩
  rw [h1]
  intro h
  exact Except.noConfusion h

/-- C4 amended: a tool invocation of appointments_by_phone with an
in-range page and a limit outside [1, 50] (e.g. 999) is rejected by the
args-schema validation before any remote call is issued, and the
rejection is fed back by _call_tool as a tool-failure result; an
in-range invocation passes validation and issues the remote call with
its limit unchanged. The clamp max(1, min(limit, 50)) lives in
HospitalAPIClient.appointments_by_phone, whose issued limit always lies
in [1, 50] with 999 becoming 50, but it takes effect only for limits
that reach the client directly. -/
theorem appointments_schema_validation_and_clamp (phone : String) (page limit : Int)
    (remote : AppointmentsQuery → Except String String) (tid : Option String) :
    (1 ≤ page → (limit < 1 ∨ 50 < limit) →
      appointmentsToolRun ⟨some phone, some page, some limit⟩
        = Except.error (apptValidationMsg "limit")
      ∧ callTool (apptRegistry remote) "appointments_by_phone"
          (some ⟨some phone, some page, some limit⟩) tid
        = BaseMessage.tool
            ("Tool \x27appointments_by_phone\x27 failed: " ++ apptValidationMsg "limit")
            "appointments_by_phone" tid)
    ∧ (1 ≤ page → 1 ≤ limit → limit ≤ 50 →
        appointmentsToolRun ⟨some phone, some page, some limit⟩
          = Except.ok (appointments_by_phone phone page limit)
        ∧ (appointments_by_phone phone page limit).limit = limit)
    ∧ appointments_by_phone_tool_query phone page limit = appointments_by_phone phone page limit
    ∧ 1 ≤ (appointments_by_phone phone page limit).limit
    ∧ (appointments_by_phone phone page limit).limit ≤ 50
    ∧ (appointments_by_phone phone page 999).limit = 50 := by
  refine ⟨?_, ?_, rfl, le_max_left 1 (min limit 50),
    max_le (by norm_num) (min_le_right limit 50), (by decide : safeLimit 999 = 50)⟩
  · intro hpage hlim
    have herr : appointmentsToolRun ⟨some phone, some page, some limit⟩
        = Except.error (apptValidationMsg "limit") := by
      simp only [appointmentsToolRun, validateApptArgs, Option.getD_some]
      rw [if_neg (by omega), if_pos (by omega)]
      rfl
    refine ⟨herr, ?_⟩
    simp [callTool, apptRegistry, appointmentsByPhoneTool, herr, Except.bind]
  · intro hpage h1 h50
    have hok : appointmentsToolRun ⟨some phone, some page, some limit⟩
        = Except.ok (appointments_by_phone phone page limit) := by
      simp only [appointmentsToolRun, validateApptArgs, Option.getD_some]
      rw [if_neg (by omega), if_neg (by omega)]
      rfl
    refine ⟨hok, ?_⟩
    show safeLimit limit = limit
    rw [safeLimit, min_eq_left h50, max_eq_right h1]

/-- C4 amended witness: an in-range invocation issues the remote query
with its limit untouched, and a zero limit is rejected by validation. -/
theorem appointments_schema_validation_and_clamp_witness :
    appointmentsToolRun ⟨some "9876543210", some 2, some 7⟩
      = Except.ok (appointments_by_phone "9876543210" 2 7)
    ∧ appointmentsToolRun ⟨some "9876543210", some 1, some 0⟩
      = Except.error (apptValidationMsg "limit") :=
  ⟨((appointments_schema_validation_and_clamp "9876543210" 2 7 remoteApptStub none).2.1
      (by decide) (by decide) (by decide)).1,
    ((appointments_schema_validation_and_clamp "9876543210" 1 0 remoteApptStub none).1
      (by decide) (Or.inl (by decide))).1⟩

/-- C5 counterexample: with no configured default client id, the
configuration error raised inside book_appointment_tool is caught by
_call_tool and becomes a recovered tool-failure Tool Result appended to
the in-flight context, contradicting the claim that it is surfaced to
the caller as a service-unavailable signal rather than fed back into the
context of the model. -/
theorem missing_client_id_is_recovered_tool_failure :
    callTool (bookRegistry cfgNoClient remoteStub) "book_appointment"
        (some bookArgsNoClient) (some "call-1")
      = BaseMessage.tool ("Tool \x27book_appointment\x27 failed: " ++ missingClientIdMsg)
          "book_appointment" (some "call-1")
    ∧ runToolLoop BookArgs oracleBook (bookRegistry cfgNoClient remoteStub) 1 []
      = (none,
          [BaseMessage.ai (oracleBook.withTools []),
            BaseMessage.tool ("Tool \x27book_appointment\x27 failed: " ++ missingClientIdMsg)
              "book_appointment" (some "call-1")]) := by
  constructor <;> rfl

/-- C5 amended: when client_id is omitted the configured default client
identifier is substituted into the outbound payload; when no default is
configured the tool raises a configuration error, but tool dispatch
catches it and feeds it back into the context of the model as a
tool-failure result instead of propagating it as a service-unavailable
signal. -/
theorem book_appointment_client_id_resolution (cfg : Config) (a : BookArgs)
    (c : String) (remote : BookAppointmentPayload → Except String String)
    (tid : Option String) :
    (cfg.hospital_client_id = some c → c ≠ "" → a.client_id = none →
      resolveBookPayload cfg a
        = Except.ok ⟨a.doctor_id, a.patient_name, a.patient_phone_number, c,
            a.meeting_time, a.appointment_type, a.status⟩)
    ∧ (cfg.hospital_client_id = none → a.client_id = none →
        resolveBookPayload cfg a = Except.error missingClientIdMsg
        ∧ callTool (bookRegistry cfg remote) "book_appointment" (some a) tid
            = BaseMessage.tool ("Tool \x27book_appointment\x27 failed: " ++ missingClientIdMsg)
                "book_appointment" tid) := by
  constructor
  · intro hc hne hnone
    simp [resolveBookPayload, hnone, requireHospitalClientId, hc, hne, Except.map]
  · intro hc hnone
    have herr : resolveBookPayload cfg a = Except.error missingClientIdMsg := by
      simp [resolveBookPayload, hnone, requireHospitalClientId, hc, Except.map]
    refine ⟨herr, ?_⟩
    simp [callTool, bookRegistry, bookAppointmentTool, herr, Except.bind]

/-- C5 amended witness: the configured default is substituted when the
model omits client_id, and the missing-configuration case yields the
recovered tool-failure message. -/
theorem book_appointment_client_id_resolution_witness :
    resolveBookPayload cfgWithClient bookArgsNoClient
      = Except.ok ⟨"doc-1", "Asha Rao", "9999999999",
          "444d9283-88fa-4320-a084-1adb97085d41", "2025-10-09T11:20:03.544Z",
          "online", "scheduled"⟩
    ∧ resolveBookPayload cfgNoClient bookArgsNoClient = Except.error missingClientIdMsg :=
  ⟨(book_appointment_client_id_resolution cfgWithClient bookArgsNoClient
      "444d9283-88fa-4320-a084-1adb97085d41" remoteStub none).1 rfl (by decide) rfl,
    ((book_appointment_client_id_resolution cfgNoClient bookArgsNoClient
      "" remoteStub none).2 rfl rfl).1⟩

/-! Helper lemmas for the synonym normalizer. -/

set_option maxRecDepth 400000

set_option maxHeartbeats 4000000

theorem lookup_mem_values :
    ∀ {ps : List (String × String)} {k v : String},
      List.lookup k ps = some v → v ∈ ps.map Prod.snd := by
  intro ps
  induction ps with
  | nil =>
      intro k v h
      simp [List.lookup] at h
  | cons p t ih =>
      intro k v h
      obtain ⟨k1, v1⟩ := p
      have hdef : List.lookup k ((k1, v1) :: t)
          = match k == k1 with
            | true => some v1
            | false => List.lookup k t := rfl
      rw [hdef] at h
      cases hbeq : (k == k1) with
      | false =>
          rw [hbeq] at h
          exact List.mem_cons_of_mem _ (ih h)
      | true =>
          rw [hbeq] at h
          injection h with h2
          exact h2 ▸ List.mem_cons_self _ _

/- Every output of the normalizer is the query itself or a value of the
alias dictionary. -/
theorem normalize_result_cases (q : String) :
    normalize_specialty_query q = q
    ∨ normalize_specialty_query q ∈ ALIAS_TO_SPECIALTY.map Prod.snd := by
  unfold normalize_specialty_query
  split
  · exact Or.inl rfl
  · split
    · exact Or.inl rfl
    · split
      · next canonical hl => exact Or.inr (lookup_mem_values hl)
      · next hl =>
          split
          · next key hg =>
              cases hlk : List.lookup (String.mk key) ALIAS_TO_SPECIALTY with
              | none => exact Or.inl rfl
              | some c => exact Or.inr (lookup_mem_values hlk)
          · next hg =>
              split
              · next p hf =>
                  exact Or.inr (List.mem_map_of_mem Prod.snd (List.mem_of_find?_eq_some hf))
              · next hf => exact Or.inl rfl

/- Every canonical label is a fixed point of the normalizer: the five
labels that are themselves lowercased aliases hit the exact branch, and
Orthopedic Surgeon falls through the fuzzy branch (no alias reaches the
0.75 cutoff against it) to the substring branch via its alias
orthopedic. -/
theorem canonical_labels_fixed :
    ∀ v ∈ ALIAS_TO_SPECIALTY.map Prod.snd, normalize_specialty_query v = v := by decide

/-- C6: synonym normalization lower-cases and trims the query; an exact
alias match substitutes the canonical label (heart doctor maps to
Cardiologist, also with extra case and padding; a near-miss typo passes
the fuzzy cutoff); and whenever the cleaned query is no exact alias, no
fuzzy candidate reaches the cutoff and no alias occurs inside it, the
query is returned unmodified, equal to the original input. -/
theorem normalize_specialty_structure :
    normalize_specialty_query "heart doctor" = "Cardiologist"
    ∧ normalize_specialty_query "  Heart DOCTOR  " = "Cardiologist"
    ∧ normalize_specialty_query "cardiologst" = "Cardiologist"
    ∧ normalize_specialty_query "plumber" = "plumber"
    ∧ (∀ q c, List.lookup (String.mk (cleanedOf q)) ALIAS_TO_SPECIALTY = some c →
        normalize_specialty_query q = c)
    ∧ (∀ q, List.lookup (String.mk (cleanedOf q)) ALIAS_TO_SPECIALTY = none →
        getCloseMatch1 (cleanedOf q) (ALIAS_TO_SPECIALTY.map (fun p => p.1.toList)) = none →
        ALIAS_TO_SPECIALTY.find? (fun p => isSubstring p.1.toList (cleanedOf q)) = none →
        normalize_specialty_query q = q) := by
  refine ⟨by decide, by decide, by decide, by decide, ?_, ?_⟩
  · intro q c h
    unfold normalize_specialty_query
    split
    · next hq =>
        have hq2 : q = "" := eq_of_beq hq
        rw [hq2] at h
        have hnone : List.lookup (String.mk (cleanedOf "")) ALIAS_TO_SPECIALTY = none := by
          decide
        rw [hnone] at h
        exact Option.noConfusion h
    · split
      · next hemp =>
          have hc : cleanedOf q = [] := List.isEmpty_iff.mp hemp
          rw [hc] at h
          have hnone : List.lookup (String.mk ([] : List Char)) ALIAS_TO_SPECIALTY = none := by
            decide
          rw [hnone] at h
          exact Option.noConfusion h
      · rw [h]
  · intro q h1 h2 h3
    unfold normalize_specialty_query
    split
    · rfl
    · split
      · rfl
      · rw [h1, h2, h3]

/-- C6 witness: the exact branch fires on the alias bone doctor and the
fall-through branch returns an unrelated query untouched. -/
theorem normalize_specialty_structure_witness :
    normalize_specialty_query "bone doctor" = "Orthopedic Surgeon"
    ∧ normalize_specialty_query "xyz" = "xyz" :=
  ⟨normalize_specialty_structure.2.2.2.2.1 "bone doctor" "Orthopedic Surgeon" (by decide),
    normalize_specialty_structure.2.2.2.2.2 "xyz" (by decide) (by decide) (by decide)⟩

/-- C10: synonym normalization is idempotent, and in particular every
canonical specialty label it can output is mapped to itself. -/
theorem normalize_specialty_idempotent (q : String) :
    normalize_specialty_query (normalize_specialty_query q) = normalize_specialty_query q := by
  rcases normalize_result_cases q with h | h
  · rw [h]
    exact h
  · exact canonical_labels_fixed _ h

end HospitalBot
